import Mathlib

/-
  Verification development for the zenshin progress-chart application.

  The core of the application is the pure data pipeline in its main script:
  `processData` (history builder, gap segmenter, pace estimator) and
  `computeForecasts` (exponentially smoothed completion forecasts), together
  with the small helper `avgDate`.  Those functions are embedded below as
  executable Lean definitions and the specified properties are proved about
  them.

  Modelling conventions:
  * A JavaScript `Date` is modelled as its millisecond timestamp (`Int`,
    UTC, no daylight-saving shifts).
  * JavaScript numbers are modelled as exact rationals (`ℚ`); the claims
    under study do not depend on floating-point rounding.
  * The date-fns library functions used by the source (`differenceInHours`,
    `differenceInDays`, `differenceInMonths`, `addHours`) are external
    dependencies of the repository; they are modelled here over the
    timestamp representation: truncated full hours / full days, and
    whole calendar months over the proleptic Gregorian calendar.
  * Code paths that throw in JavaScript (indexing past the end of an empty
    array) are modelled with `Option`, `none` standing for the thrown error.
-/

namespace Zenshin

/-- Timestamps: milliseconds since the Unix epoch (the value of a
JavaScript `Date`), in UTC with no daylight-saving shifts. -/
abbrev Time := Int

def msPerHour : Int := 3600000

def msPerDay : Int := 86400000

/-- Model of date-fns `differenceInHours` (default truncating rounding):
full hours between two instants, truncated toward zero. -/
def differenceInHours (a b : Time) : Int := (a - b).tdiv msPerHour

/-- Model of date-fns `differenceInDays`: full days between two instants,
truncated toward zero (exact in a DST-free model). -/
def differenceInDays (a b : Time) : Int := (a - b).tdiv msPerDay

/-- Truncation toward zero of a rational number, as the JavaScript `Date`
constructor applies to a fractional millisecond value. -/
def ratTrunc (q : ℚ) : Int := q.num.tdiv (q.den : Int)

/-- Model of date-fns `addHours`: add a (possibly fractional) number of
hours to a timestamp; the resulting millisecond value is truncated. -/
def addHours (t : Time) (h : ℚ) : Time := t + ratTrunc (h * (msPerHour : ℚ))

/-- `avgDate` from the source: `new Date((a.getTime() + b.getTime()) / 2)`,
the midpoint of two timestamps (truncated to a whole millisecond). -/
def avgDate (a b : Time) : Time := (a + b).tdiv 2

/-- Gregorian leap-year test. -/
def isLeap (y : Int) : Bool := y % 4 == 0 && (y % 100 != 0 || y % 400 == 0)

/-- Length of a Gregorian month. -/
def daysInMonth (y m : Int) : Int :=
  if m == 2 then (if isLeap y then 29 else 28)
  else if m == 4 || m == 6 || m == 9 || m == 11 then 30
  else 31

/-- Proleptic Gregorian civil date `(year, month, day)` of a day count
(days since 1970-01-01). -/
def civilFromDays (z0 : Int) : Int × Int × Int :=
  let z := z0 + 719468
  let era := z.fdiv 146097
  let doe := z - era * 146097
  let yoe := (doe - doe.fdiv 1460 + doe.fdiv 36524 - doe.fdiv 146096).fdiv 365
  let y := yoe + era * 400
  let doy := doe - (365 * yoe + yoe.fdiv 4 - yoe.fdiv 100)
  let mp := (5 * doy + 2).fdiv 153
  let d := doy - (153 * mp + 2).fdiv 5 + 1
  let m := mp + (if mp < 10 then 3 else -9)
  (if m ≤ 2 then y + 1 else y, m, d)

/-- Day count (days since 1970-01-01) of a proleptic Gregorian civil date. -/
def daysFromCivil (y m d : Int) : Int :=
  let y1 := if m ≤ 2 then y - 1 else y
  let era := y1.fdiv 400
  let yoe := y1 - era * 400
  let mp := if 2 < m then m - 3 else m + 9
  let doy := (153 * mp + 2).fdiv 5 + d - 1
  let doe := yoe * 365 + yoe.fdiv 4 - yoe.fdiv 100 + doy
  era * 146097 + doe - 719468

/-- Add `n` calendar months to a timestamp, clamping the day of month
(JavaScript-style month arithmetic). -/
def addMonthsT (t : Time) (n : Int) : Time :=
  let days := t.fdiv msPerDay
  let rem := t.emod msPerDay
  let c := civilFromDays days
  let mm := c.1 * 12 + (c.2.1 - 1) + n
  let y2 := mm.fdiv 12
  let m2 := mm.emod 12 + 1
  let d2 := min c.2.2 (daysInMonth y2 m2)
  daysFromCivil y2 m2 d2 * msPerDay + rem

/-- Difference of calendar months (ignoring days and time of day). -/
def calendarMonthDiff (a b : Time) : Int :=
  let ca := civilFromDays (a.fdiv msPerDay)
  let cb := civilFromDays (b.fdiv msPerDay)
  (ca.1 - cb.1) * 12 + (ca.2.1 - cb.2.1)

/-- Whole months from `b` forward to `a`, assuming `b ≤ a`: the calendar
month difference, minus one when the last month is not yet complete. -/
def wholeMonths (a b : Time) : Int :=
  let d := calendarMonthDiff a b
  if addMonthsT b d ≤ a then d else d - 1

/-- Model of date-fns `differenceInMonths`: the signed number of whole
calendar months between two instants. -/
def differenceInMonths (a b : Time) : Int :=
  if b ≤ a then wholeMonths a b else -(wholeMonths b a)

/- ### Data model of the pipeline -/

/-- A chart point `{x, y}`: `x` a timestamp, `y` a zero-based level index. -/
structure Point where
  x : Time
  y : Int
deriving DecidableEq

/-- An element of the history series after gap segmentation: either a real
point or the empty-object sentinel `{}` the source inserts as a gap marker. -/
inductive Elem where
  | gap : Elem
  | real (p : Point) : Elem
deriving DecidableEq

/-- A raw level-progression record, as consumed by `processData`:
`{ data: { level, unlocked_at, passed_at } }`. -/
structure Record where
  level : Int
  unlocked_at : Time
  passed_at : Option Time
deriving DecidableEq

/-- An element of the speed series: either a propagated gap marker or a
numeric pace sample `{x, y}` (midpoint timestamp, levels per month). -/
inductive SpeedElem where
  | gap : SpeedElem
  | sample (x : Time) (y : ℚ) : SpeedElem
deriving DecidableEq

/- ### Constants of the source -/

def MAX_LEVEL : Int := 60

def GAP_MONTHS : Int := 6

def SKIP_MONTHS : Int := 3

/-- The low-level cutoff hard-coded as `item.y < 3` in the speed
computation; kept as a parameter of `computeSpeed`, with this value used by
the pipeline. -/
def LOW_LEVEL : Int := 3

/- ### History builder (`processData`, mapping/filter/completion part) -/

/-- `levels.map(({data:{level, unlocked_at}}) => ({x: parseISO(unlocked_at),
y: level - 1}))`. -/
def unlockPoints (records : List Record) : List Point :=
  records.map fun r => ⟨r.unlocked_at, r.level - 1⟩

/-- The completion point appended by `processData`: if the last record has
`passed_at`, one point at `{x: passed_at, y: level}` (not `level - 1`). -/
def completionOf (records : List Record) : List Point :=
  match records.getLast? with
  | none => []
  | some lr =>
    match lr.passed_at with
    | none => []
    | some t => [⟨t, lr.level⟩]

/-- The effective start date: `startDateStr ? maxDates([parseISO(s),
history[0].x]) : history[0].x`. -/
def effStart (cutoff : Option Time) (first : Time) : Time :=
  match cutoff with
  | some c => max c first
  | none => first

/-- The history-building part of `processData`: map records to points,
filter by `x >= startDate`, then push the completion point. An empty record
list makes the source throw (`history[0].x` on `undefined`), modelled as
`none`. -/
def buildHistory : List Record → Option Time → Option (List Point)
  | [], _ => none
  | r0 :: rest, cutoff =>
    let startDate := effStart cutoff r0.unlocked_at
    some (((unlockPoints (r0 :: rest)).filter fun p => startDate ≤ p.x)
      ++ completionOf (r0 :: rest))

/- ### Gap segmenter (`processData`, history.flatMap part) -/

/-- The break condition of the segmenter: `item.y < prev.y` (restart) or a
pause of at least `GAP_MONTHS` whole months. -/
def gapBreak (prev cur : Point) : Bool :=
  decide (cur.y < prev.y) || decide (GAP_MONTHS ≤ differenceInMonths cur.x prev.x)

/-- The segmenter's pass over consecutive pairs: each element past the
first is emitted either alone or preceded by a gap marker. -/
def segmentFrom (prev : Point) : List Point → List Elem
  | [] => []
  | cur :: rest =>
    (if gapBreak prev cur then [Elem.gap, Elem.real cur] else [Elem.real cur])
      ++ segmentFrom cur rest

/-- The gap segmenter: `history.flatMap((item, i) => ...)`, the first
element emitted as-is, every later element compared with its predecessor. -/
def segmentHistory : List Point → List Elem
  | [] => []
  | first :: rest => Elem.real first :: segmentFrom first rest

/-- The real points of a segmented series, gap markers dropped. -/
def realPoints : List Elem → List Point
  | [] => []
  | Elem.gap :: rest => realPoints rest
  | Elem.real p :: rest => p :: realPoints rest

/-- Number of gap markers in a segmented series. -/
def countGaps : List Elem → Nat
  | [] => 0
  | Elem.gap :: rest => countGaps rest + 1
  | Elem.real _ :: rest => countGaps rest

/- ### Pace estimator (`processData`, speed flatMap part) -/

/-- One step of the speed computation, for the pair `(prev, item)` at index
`i ≥ 1`: a gap marker propagates (`item.x === undefined`), a low-level
current point or a gap predecessor is suppressed, otherwise a numeric
sample is emitted at the midpoint timestamp. -/
def speedChunk (lowCut : Int) (prev item : Elem) : List SpeedElem :=
  match item with
  | Elem.gap => [SpeedElem.gap]
  | Elem.real cur =>
    if cur.y < lowCut then []
    else
      match prev with
      | Elem.gap => []
      | Elem.real p =>
        let dx_months : ℚ := (differenceInDays cur.x p.x : ℚ) / 30
        let dy_levels : ℚ := ((cur.y - p.y : Int) : ℚ)
        [SpeedElem.sample (avgDate p.x cur.x) (dy_levels / dx_months)]

/-- The speed pass over consecutive pairs of the segmented history. -/
def speedFrom (lowCut : Int) (prev : Elem) : List Elem → List SpeedElem
  | [] => []
  | item :: rest => speedChunk lowCut prev item ++ speedFrom lowCut item rest

/-- The pace estimator: `history.flatMap((item, i) => ...)` over the
gap-segmented history, index 0 emitting nothing. -/
def computeSpeed (lowCut : Int) : List Elem → List SpeedElem
  | [] => []
  | first :: rest => speedFrom lowCut first rest

/-- The numeric samples of a speed series, gap markers dropped. -/
def numericSamples : List SpeedElem → List (Time × ℚ)
  | [] => []
  | SpeedElem.gap :: rest => numericSamples rest
  | SpeedElem.sample x y :: rest => (x, y) :: numericSamples rest

/- ### Forecaster (`computeForecasts`) -/

/-- The source's update of one running average: `if (!old) avgHours[i] =
hours; else avgHours[i] = alpha * hours + (1 - alpha) * old`.  JavaScript
falsiness makes both `null` and `0` reset the average to the observed
hours. -/
def updateAvg (alpha : ℚ) (hours : Int) : Option ℚ → ℚ
  | none => (hours : ℚ)
  | some o => if o = 0 then (hours : ℚ) else alpha * hours + (1 - alpha) * o

/-- One iteration of the forecaster's loop: the pair is skipped when the
whole-month difference reaches `SKIP_MONTHS`, otherwise both averages are
updated (with alphas 0.5 and 0.25).  The source's extra `cur && prev` test
is vacuous: both are `Date` objects, which are always truthy. -/
def forecastStep (avgs : Option ℚ × Option ℚ) (prev cur : Point) :
    Option ℚ × Option ℚ :=
  let hours := differenceInHours cur.x prev.x
  let months := differenceInMonths cur.x prev.x
  if months < SKIP_MONTHS then
    (some (updateAvg (1/2) hours avgs.1), some (updateAvg (1/4) hours avgs.2))
  else avgs

/-- The forecaster's scan `for (let i = 1; i < history.length; ++i)`,
carrying the previous point. -/
def avgHoursScan : (Option ℚ × Option ℚ) → Point → List Point →
    Option ℚ × Option ℚ
  | avgs, _, [] => avgs
  | avgs, prev, cur :: rest => avgHoursScan (forecastStep avgs prev cur) cur rest

/-- The two running averages after the forecaster's scan, starting from
`[null, null]`. -/
def computeAvgHours : List Point → Option ℚ × Option ℚ
  | [] => (none, none)
  | first :: rest => avgHoursScan (none, none) first rest

/-- JavaScript arithmetic coercion of the final average: `null` becomes 0
in `avg * levelsToDo`. -/
def nullToZero : Option ℚ → ℚ
  | none => 0
  | some q => q

/-- One forecast line: `[{x: last.x, y: last.y}, {x: addHours(last.x, avg *
levelsToDo), y: MAX_LEVEL}]`. -/
def forecastLine (last : Point) (avg : Option ℚ) : Point × Point :=
  let levelsToDo : ℚ := ((MAX_LEVEL - last.y : Int) : ℚ)
  (⟨last.x, last.y⟩, ⟨addHours last.x (nullToZero avg * levelsToDo), MAX_LEVEL⟩)

/-- `computeForecasts`: the smoothed averages and the two projected lines.
On an empty history the source throws (`history[length-1]` is `undefined`),
modelled as `none`. -/
def computeForecasts (history : List Point) : Option (List (Point × Point)) :=
  match history.getLast? with
  | none => none
  | some last =>
    let avgs := computeAvgHours history
    some [forecastLine last avgs.1, forecastLine last avgs.2]

/- ### Full pipeline (`processData`) -/

/-- The three series handed to `makeChart`. -/
structure ChartData where
  history : List Elem
  forecasts : List (Point × Point)
  speed : List SpeedElem
deriving DecidableEq

/-- The pure core of `processData`: build the history, compute the
forecasts from the original (non-segmented) history, segment it, and derive
the speed series from the segmented history.  `none` models the thrown
`TypeError` on inputs on which the source crashes. -/
def processData (records : List Record) (cutoff : Option Time) :
    Option ChartData :=
  match buildHistory records cutoff with
  | none => none
  | some history =>
    match computeForecasts history with
    | none => none
    | some forecasts =>
      let gapped := segmentHistory history
      some ⟨gapped, forecasts, computeSpeed LOW_LEVEL gapped⟩

/- ### Pairwise (spec-level) formulations -/

/-- The consecutive pairs of a list. -/
def pairs (l : List α) : List (α × α) := l.zip l.tail

/-- Update rule as the specification words it: a not-yet-initialized
average becomes the observed hours, an initialized one is exponentially
smoothed — with no special case for a zero average. -/
def specUpdateAvg (alpha : ℚ) (hours : Int) : Option ℚ → ℚ
  | none => (hours : ℚ)
  | some o => alpha * hours + (1 - alpha) * o

/-- The forecaster's scan as the specification words it, over consecutive
pairs, using `specUpdateAvg`. -/
def specAvgHours (h : List Point) : Option ℚ × Option ℚ :=
  (pairs h).foldl
    (fun avgs pc =>
      if SKIP_MONTHS ≤ differenceInMonths pc.2.x pc.1.x then avgs
      else
        (some (specUpdateAvg (1/2) (differenceInHours pc.2.x pc.1.x) avgs.1),
         some (specUpdateAvg (1/4) (differenceInHours pc.2.x pc.1.x) avgs.2)))
    (none, none)

/-- The forecaster's scan over consecutive pairs with the source's actual
(falsiness-based) update rule. -/
def amendedAvgHours (h : List Point) : Option ℚ × Option ℚ :=
  (pairs h).foldl
    (fun avgs pc =>
      if SKIP_MONTHS ≤ differenceInMonths pc.2.x pc.1.x then avgs
      else
        (some (updateAvg (1/2) (differenceInHours pc.2.x pc.1.x) avgs.1),
         some (updateAvg (1/4) (differenceInHours pc.2.x pc.1.x) avgs.2)))
    (none, none)

/-- The gap segmenter as the specification words it: the first element
as-is, then each pair's current element, preceded by a gap marker exactly
when the break condition holds. -/
def specSegment (l : List Point) : List Elem :=
  match l with
  | [] => []
  | first :: _ =>
    Elem.real first ::
      (pairs l).flatMap fun pc =>
        if gapBreak pc.1 pc.2 then [Elem.gap, Elem.real pc.2]
        else [Elem.real pc.2]

/-- The numeric sample a consecutive pair of the segmented series yields,
if any: both elements real and the current level at or above the cutoff. -/
def pairSample (lowCut : Int) (pc : Elem × Elem) : Option (Time × ℚ) :=
  match pc with
  | (Elem.real p, Elem.real cur) =>
    if cur.y < lowCut then none
    else
      some (avgDate p.x cur.x,
        ((cur.y - p.y : Int) : ℚ) / ((differenceInDays cur.x p.x : ℚ) / 30))
  | _ => none

/- ### Helper lemmas -/

theorem realPoints_append (a b : List Elem) :
    realPoints (a ++ b) = realPoints a ++ realPoints b := by
  induction a with
  | nil => rfl
  | cons e rest ih => cases e <;> simp [realPoints, ih]

theorem realPoints_segmentFrom (l : List Point) : ∀ prev,
    realPoints (segmentFrom prev l) = l := by
  induction l with
  | nil => intro prev; rfl
  | cons cur rest ih =>
    intro prev
    cases hgb : gapBreak prev cur <;>
      simp [segmentFrom, hgb, realPoints_append, realPoints, ih cur]

theorem pairs_cons (a b : α) (l : List α) :
    pairs (a :: b :: l) = (a, b) :: pairs (b :: l) := rfl

theorem segmentFrom_pairs (l : List Point) : ∀ prev,
    segmentFrom prev l =
      (pairs (prev :: l)).flatMap fun pc =>
        if gapBreak pc.1 pc.2 then [Elem.gap, Elem.real pc.2]
        else [Elem.real pc.2] := by
  induction l with
  | nil => intro prev; rfl
  | cons cur rest ih =>
    intro prev
    rw [pairs_cons, List.flatMap_cons]
    simp only [segmentFrom, ih cur]

theorem countGaps_append (a b : List Elem) :
    countGaps (a ++ b) = countGaps a + countGaps b := by
  induction a with
  | nil => simp [countGaps]
  | cons e rest ih =>
    cases e with
    | gap => simp [countGaps, ih]; omega
    | real p => simp [countGaps, ih]

theorem countGaps_segmentFrom (l : List Point) : ∀ prev,
    List.Chain' (fun p q : Point =>
      p.y ≤ q.y ∧ differenceInMonths q.x p.x < GAP_MONTHS) (prev :: l) →
    countGaps (segmentFrom prev l) = 0 := by
  induction l with
  | nil => intro prev _; rfl
  | cons cur rest ih =>
    intro prev h
    rw [List.chain'_cons] at h
    have hgb : gapBreak prev cur = false := by
      simp only [gapBreak, Bool.or_eq_false_iff, decide_eq_false_iff_not]
      exact ⟨not_lt.mpr h.1.1, not_le.mpr h.1.2⟩
    simp [segmentFrom, hgb, countGaps_append, countGaps, ih cur h.2]

/- ### Claim C3 -/

/-- Claim C3: for every input point sequence, the gap segmenter's output
with the gap markers removed is exactly the input sequence, element for
element and in order. -/
theorem C3_theorem (l : List Point) : realPoints (segmentHistory l) = l := by
  cases l with
  | nil => rfl
  | cons first rest =>
    simp [segmentHistory, realPoints, realPoints_segmentFrom]

/- ### Claim C4 -/

/-- Claim C4: the segmenter emits the first element unchanged and, for each
consecutive pair, a gap marker immediately before the current element
exactly when the level regresses or the whole-month difference reaches
`GAP_MONTHS` (this is the equality with `specSegment`); consequently a
monotone history with all whole-month gaps below the threshold yields zero
gap markers. -/
theorem C4_theorem (l : List Point) :
    segmentHistory l = specSegment l ∧
      (List.Chain' (fun p q : Point =>
          p.y ≤ q.y ∧ differenceInMonths q.x p.x < GAP_MONTHS) l →
        countGaps (segmentHistory l) = 0) := by
  constructor
  · cases l with
    | nil => rfl
    | cons first rest =>
      simp only [segmentHistory, specSegment, segmentFrom_pairs]
  · intro hchain
    cases l with
    | nil => rfl
    | cons first rest =>
      simp only [segmentHistory, countGaps]
      exact countGaps_segmentFrom rest first hchain

/-- The hypotheses of `C4_theorem` are satisfiable: a concrete two-point
monotone history one day apart produces no gap markers. -/
theorem C4_witness :
    countGaps (segmentHistory [⟨0, 0⟩, ⟨86400000, 1⟩]) = 0 :=
  (C4_theorem [⟨0, 0⟩, ⟨86400000, 1⟩]).2 (List.chain'_pair.mpr (by decide))

/- ### Claim C1 -/

theorem forecastStep_flip (avgs : Option ℚ × Option ℚ) (prev cur : Point) :
    forecastStep avgs prev cur =
      if SKIP_MONTHS ≤ differenceInMonths cur.x prev.x then avgs
      else
        (some (updateAvg (1/2) (differenceInHours cur.x prev.x) avgs.1),
         some (updateAvg (1/4) (differenceInHours cur.x prev.x) avgs.2)) := by
  simp only [forecastStep]
  by_cases h : SKIP_MONTHS ≤ differenceInMonths cur.x prev.x
  · rw [if_neg (not_lt.mpr h), if_pos h]
  · rw [if_pos (lt_of_not_le h), if_neg h]

theorem avgHoursScan_pairs (l : List Point) : ∀ prev avgs,
    avgHoursScan avgs prev l =
      (pairs (prev :: l)).foldl
        (fun avgs pc =>
          if SKIP_MONTHS ≤ differenceInMonths pc.2.x pc.1.x then avgs
          else
            (some (updateAvg (1/2) (differenceInHours pc.2.x pc.1.x) avgs.1),
             some (updateAvg (1/4) (differenceInHours pc.2.x pc.1.x) avgs.2)))
        avgs := by
  induction l with
  | nil => intro prev avgs; rfl
  | cons cur rest ih =>
    intro prev avgs
    rw [pairs_cons, List.foldl_cons]
    simp only [avgHoursScan, ih cur, forecastStep_flip]

/-- Claim C1 fails as stated: on the history `[0ms, 1800000ms, 36000000ms]`
(half an hour, then ten hours), the first pair observes 0 full hours, so
both averages are initialized to 0; the source's falsy test `!old` then
treats the initialized value 0 as uninitialized and resets both averages to
the second pair's 9 observed hours, where the claim's smoothing rule would
give 4.5 and 2.25. -/
theorem C1_counterexample :
    computeAvgHours [⟨0, 0⟩, ⟨1800000, 1⟩, ⟨36000000, 2⟩] ≠
      specAvgHours [⟨0, 0⟩, ⟨1800000, 1⟩, ⟨36000000, 2⟩] := by
  with_unfolding_all decide

/-- Claim C1 (amended): the forecaster scans consecutive pairs in order,
leaves both averages unchanged on a pair whose whole-month difference
reaches `SKIP_MONTHS`, and otherwise updates each average — where an
average that is uninitialized *or currently equal to 0* (JavaScript
falsiness) is set to the observed hours, and any other average is smoothed
as `alpha * observed + (1 - alpha) * old` with alphas 0.5 and 0.25. -/
theorem C1_theorem (h : List Point) (hlen : 2 ≤ h.length) :
    computeAvgHours h = amendedAvgHours h := by
  cases h with
  | nil => simp at hlen
  | cons first rest =>
    simp only [computeAvgHours, amendedAvgHours]
    exact avgHoursScan_pairs rest first (none, none)

/-- The hypothesis of `C1_theorem` holds on the three-point history of the
counterexample, where both sides evaluate to averages of 9 hours. -/
theorem C1_witness :
    computeAvgHours [⟨0, 0⟩, ⟨1800000, 1⟩, ⟨36000000, 2⟩] =
      amendedAvgHours [⟨0, 0⟩, ⟨1800000, 1⟩, ⟨36000000, 2⟩] :=
  C1_theorem [⟨0, 0⟩, ⟨1800000, 1⟩, ⟨36000000, 2⟩] (by decide)

/- ### Claim C2 -/

theorem ratTrunc_zero : ratTrunc 0 = 0 := by with_unfolding_all decide

theorem addHours_zero (t : Time) : addHours t 0 = t := by
  simp [addHours, ratTrunc_zero]

theorem forecastLine_none (last : Point) :
    forecastLine last none = (⟨last.x, last.y⟩, ⟨last.x, MAX_LEVEL⟩) := by
  simp [forecastLine, nullToZero, addHours_zero]

theorem avgHoursScan_skipped (l : List Point) : ∀ prev avgs,
    List.Chain' (fun p q : Point =>
      SKIP_MONTHS ≤ differenceInMonths q.x p.x) (prev :: l) →
    avgHoursScan avgs prev l = avgs := by
  induction l with
  | nil => intro prev avgs _; rfl
  | cons cur rest ih =>
    intro prev avgs h
    rw [List.chain'_cons] at h
    have hstep : forecastStep avgs prev cur = avgs := by
      simp only [forecastStep]
      rw [if_neg (not_lt.mpr h.1)]
    simp only [avgHoursScan]
    rw [hstep]
    exact ih cur avgs h.2

/-- Claim C2 fails as stated: on a two-point history 200 days apart (whole
months 6 ≥ skip threshold 3) both averages stay uninitialized, yet the
returned forecast lines are not undefined — each projected completion point
is the concrete point at the last history point's own timestamp
(`null * levelsToDo` is 0 in JavaScript), a zero-duration forecast. -/
theorem C2_counterexample :
    computeAvgHours [⟨0, 0⟩, ⟨17280000000, 1⟩] = (none, none) ∧
      (computeForecasts [⟨0, 0⟩, ⟨17280000000, 1⟩]).map
          (fun ls => ls.map fun line => line.2.x) =
        some [17280000000, 17280000000] := by
  have havg : computeAvgHours [⟨0, 0⟩, ⟨17280000000, 1⟩] = (none, none) :=
    avgHoursScan_skipped [⟨17280000000, 1⟩] ⟨0, 0⟩ (none, none)
      (List.chain'_pair.mpr (by decide))
  refine ⟨havg, ?_⟩
  have hfc : computeForecasts [⟨0, 0⟩, ⟨17280000000, 1⟩] =
      some [forecastLine ⟨17280000000, 1⟩
              (computeAvgHours [⟨0, 0⟩, ⟨17280000000, 1⟩]).1,
            forecastLine ⟨17280000000, 1⟩
              (computeAvgHours [⟨0, 0⟩, ⟨17280000000, 1⟩]).2] := rfl
  rw [hfc, havg, forecastLine_none]
  rfl

/-- Claim C2 (amended): when every consecutive pair is skipped, both
smoothed averages remain uninitialized (`null`), but the forecast lines are
not undefined: the `null` average is coerced to 0 hours, so each line's
projected completion point is the zero-duration point at the last history
point's own timestamp. -/
theorem C2_theorem (h : List Point) (last : Point)
    (hlast : h.getLast? = some last)
    (hskip : List.Chain' (fun p q : Point =>
      SKIP_MONTHS ≤ differenceInMonths q.x p.x) h) :
    computeAvgHours h = (none, none) ∧
      computeForecasts h =
        some [(⟨last.x, last.y⟩, ⟨last.x, MAX_LEVEL⟩),
              (⟨last.x, last.y⟩, ⟨last.x, MAX_LEVEL⟩)] := by
  have havg : computeAvgHours h = (none, none) := by
    cases h with
    | nil => rfl
    | cons first rest => exact avgHoursScan_skipped rest first (none, none) hskip
  refine ⟨havg, ?_⟩
  have hfc : computeForecasts h =
      some [forecastLine last (computeAvgHours h).1,
            forecastLine last (computeAvgHours h).2] := by
    unfold computeForecasts
    rw [hlast]
  rw [hfc, havg, forecastLine_none]

/-- The hypotheses of `C2_theorem` are satisfiable: on the concrete
two-point history 200 days apart, both forecast lines collapse onto the
last point's timestamp. -/
theorem C2_witness :
    computeForecasts [⟨0, 0⟩, ⟨17280000000, 1⟩] =
      some [(⟨17280000000, 1⟩, ⟨17280000000, MAX_LEVEL⟩),
            (⟨17280000000, 1⟩, ⟨17280000000, MAX_LEVEL⟩)] :=
  (C2_theorem [⟨0, 0⟩, ⟨17280000000, 1⟩] ⟨17280000000, 1⟩ (by decide)
    (List.chain'_pair.mpr (by decide))).2

/- ### Claim C5 -/

theorem numericSamples_append (a b : List SpeedElem) :
    numericSamples (a ++ b) = numericSamples a ++ numericSamples b := by
  induction a with
  | nil => rfl
  | cons e rest ih => cases e <;> simp [numericSamples, ih]

theorem numericSamples_speedChunk (lowCut : Int) (prev item : Elem) :
    numericSamples (speedChunk lowCut prev item) =
      (pairSample lowCut (prev, item)).toList := by
  cases item with
  | gap => cases prev <;> rfl
  | real cur =>
    cases prev with
    | gap => simp [speedChunk, pairSample, numericSamples]
    | real p =>
      by_cases hc : cur.y < lowCut <;>
        simp [speedChunk, pairSample, hc, numericSamples]

theorem numericSamples_speedFrom (lowCut : Int) (l : List Elem) : ∀ prev,
    numericSamples (speedFrom lowCut prev l) =
      (pairs (prev :: l)).filterMap (pairSample lowCut) := by
  induction l with
  | nil => intro prev; rfl
  | cons item rest ih =>
    intro prev
    rw [pairs_cons, List.filterMap_cons]
    simp only [speedFrom, numericSamples_append, numericSamples_speedChunk,
      ih item]
    cases hps : pairSample lowCut (prev, item) <;> simp [hps]

/-- Every pair of real points at least level 3 at the current element, as
claim C5 words the source pair of a sample (both elements real and both at
or above the low-level threshold). -/
def bothHighReal : Elem × Elem → Bool
  | (Elem.real p, Elem.real q) => decide (LOW_LEVEL ≤ p.y) && decide (LOW_LEVEL ≤ q.y)
  | _ => false

/-- Claim C5 fails as stated: on the segmenter output of the history
`[{x:0, y:2}, {x:1000h, y:3}]` the estimator emits one numeric sample, yet
no adjacent pair of that series consists of two real points both at or
above the threshold 3 — the emitted sample's earlier point has level index
2, because the source only tests the *current* point against the
threshold. -/
theorem C5_counterexample :
    (numericSamples (computeSpeed LOW_LEVEL
        (segmentHistory [⟨0, 2⟩, ⟨3600000000, 3⟩]))).length = 1 ∧
      (pairs (segmentHistory [⟨0, 2⟩, ⟨3600000000, 3⟩])).any bothHighReal
        = false := by
  with_unfolding_all decide

/-- Claim C5 (amended): every numeric pace sample is derived from a
consecutive pair of the gap-segmented input in which neither element is a
gap marker and the *current* (later) element's level index is at or above
the low-level threshold 3; the earlier element of the pair may be below the
threshold. -/
theorem C5_theorem (s : List Elem) :
    numericSamples (computeSpeed LOW_LEVEL s) =
      (pairs s).filterMap (pairSample LOW_LEVEL) := by
  cases s with
  | nil => rfl
  | cons first rest => exact numericSamples_speedFrom LOW_LEVEL rest first

/- ### Claim C6 -/

/-- Claim C6: with a supplied cutoff, the builder keeps exactly the unlock
points at or after the later of the cutoff and the first record's unlock
time; with no cutoff (or a cutoff clamped to the first unlock) nothing is
dropped from a history whose first unlock is earliest. -/
theorem C6_theorem (r0 : Record) (rest : List Record) (c : Time)
    (hsorted : ∀ r ∈ r0 :: rest, r0.unlocked_at ≤ r.unlocked_at) :
    buildHistory (r0 :: rest) (some c) =
      some (((unlockPoints (r0 :: rest)).filter
          fun p => max c r0.unlocked_at ≤ p.x) ++ completionOf (r0 :: rest)) ∧
    buildHistory (r0 :: rest) none =
      some (unlockPoints (r0 :: rest) ++ completionOf (r0 :: rest)) ∧
    (c ≤ r0.unlocked_at →
      buildHistory (r0 :: rest) (some c) = buildHistory (r0 :: rest) none) := by
  have hkeep : (unlockPoints (r0 :: rest)).filter
      (fun p => decide (r0.unlocked_at ≤ p.x)) = unlockPoints (r0 :: rest) := by
    rw [List.filter_eq_self]
    intro p hp
    obtain ⟨r, hr, rfl⟩ := List.mem_map.mp hp
    simpa using hsorted r hr
  refine ⟨rfl, ?_, ?_⟩
  · simp only [buildHistory, effStart]
    rw [hkeep]
  · intro hc
    simp only [buildHistory, effStart, max_eq_right hc]

/-- The hypotheses of `C6_theorem` are satisfiable: on two sorted records,
a cutoff of −5 ms (before the first unlock at 0) leaves the built history
identical to the no-cutoff history. -/
theorem C6_witness :
    buildHistory [⟨1, 0, none⟩, ⟨2, 100, none⟩] (some (-5)) =
      buildHistory [⟨1, 0, none⟩, ⟨2, 100, none⟩] none :=
  (C6_theorem ⟨1, 0, none⟩ [⟨2, 100, none⟩] (-5) (by decide)).2.2 (by decide)

/- ### Claim C7 -/

theorem segmentFrom_sane (l : List Point) : ∀ prev,
    List.Chain' (fun a b => a ≠ Elem.gap ∨ b ≠ Elem.gap)
        (Elem.real prev :: segmentFrom prev l) ∧
      (Elem.real prev :: segmentFrom prev l).getLast? ≠ some Elem.gap := by
  induction l with
  | nil =>
    intro prev
    refine ⟨List.chain'_singleton _, ?_⟩
    simp [segmentFrom]
  | cons cur rest ih =>
    intro prev
    have hih := ih cur
    cases hgb : gapBreak prev cur with
    | false =>
      simp only [segmentFrom, hgb, Bool.false_eq_true, if_false,
        List.singleton_append]
      refine ⟨List.chain'_cons.mpr ⟨Or.inl (by simp), hih.1⟩, ?_⟩
      rw [List.getLast?_cons_cons]
      exact hih.2
    | true =>
      simp only [segmentFrom, hgb, if_true, List.cons_append, List.nil_append]
      refine ⟨List.chain'_cons.mpr ⟨Or.inl (by simp),
        List.chain'_cons.mpr ⟨Or.inr (by simp), hih.1⟩⟩, ?_⟩
      rw [List.getLast?_cons_cons, List.getLast?_cons_cons]
      exact hih.2

/-- Claim C7 fails as stated: running the full pipeline on three records
whose levels regress twice (6, 5, 4 — two resets) yields a pace series that
is exactly two adjacent gap markers, so in the pace-sample series a gap
marker can be the first element and two gap markers can be adjacent. -/
theorem C7_counterexample :
    (processData [⟨6, 0, none⟩, ⟨5, 1000, none⟩, ⟨4, 2000, none⟩] none).map
        ChartData.speed = some [SpeedElem.gap, SpeedElem.gap] := by
  with_unfolding_all decide

/-- Claim C7 (amended): in the gap-segmented *history* series, gap markers
appear only between two real points — never first, never last, and never
two adjacent; the pace-sample series does not satisfy this invariant in
general. -/
theorem C7_theorem (l : List Point) :
    (segmentHistory l).head? ≠ some Elem.gap ∧
      List.Chain' (fun a b => a ≠ Elem.gap ∨ b ≠ Elem.gap)
        (segmentHistory l) ∧
      (segmentHistory l).getLast? ≠ some Elem.gap := by
  cases l with
  | nil => simp [segmentHistory]
  | cons first rest =>
    have h := segmentFrom_sane rest first
    exact ⟨by simp [segmentHistory], h.1, h.2⟩

/- ### Claim C8 -/

/-- Claim C8 fails as stated: on the history Jan 1 / Feb 1 / Mar 1 1970
with the low-level cutoff taken as 0, the estimator emits exactly two
samples at the midpoint timestamps, but their rates are 30/31 ≈ 0.97 and
30/28 = 15/14 ≈ 1.07 levels per month — neither is within 0.01 of the
claimed 1.03 (nor within 0.04 of it). -/
theorem C8_counterexample :
    computeSpeed 0 (segmentHistory
        [⟨0, 0⟩, ⟨2678400000, 1⟩, ⟨5097600000, 2⟩]) =
      [SpeedElem.sample 1339200000 (30/31),
       SpeedElem.sample 3888000000 (15/14)] ∧
      (103/100 : ℚ) - 30/31 > 1/100 ∧ (15/14 : ℚ) - 103/100 > 1/100 := by
  refine ⟨?_, by norm_num, by norm_num⟩
  have hseg : segmentHistory [⟨0, 0⟩, ⟨2678400000, 1⟩, ⟨5097600000, 2⟩] =
      [Elem.real ⟨0, 0⟩, Elem.real ⟨2678400000, 1⟩,
       Elem.real ⟨5097600000, 2⟩] := by
    set_option maxRecDepth 2000 in decide
  rw [hseg]
  have hd1 : differenceInDays 2678400000 0 = 31 := by decide
  have hd2 : differenceInDays 5097600000 2678400000 = 28 := by decide
  have ha1 : avgDate 0 2678400000 = 1339200000 := by decide
  have ha2 : avgDate 2678400000 5097600000 = 3888000000 := by decide
  simp only [computeSpeed, speedFrom, speedChunk, hd1, hd2, ha1, ha2,
    List.append_nil, List.nil_append]
  norm_num

/-- Claim C8 (amended): on the history Jan 1 / Feb 1 / Mar 1 1970 with the
low-level cutoff taken as 0, the pace estimator emits exactly two samples
positioned at the midpoint timestamps of their intervals, with rates 30/31
(≈ 0.97, a 31-day month) and 15/14 (≈ 1.07, a 28-day month) levels per
30-day month. -/
theorem C8_theorem :
    computeSpeed 0 (segmentHistory
        [⟨0, 0⟩, ⟨2678400000, 1⟩, ⟨5097600000, 2⟩]) =
      [SpeedElem.sample (avgDate 0 2678400000) (30/31),
       SpeedElem.sample (avgDate 2678400000 5097600000) (15/14)] := by
  have hseg : segmentHistory [⟨0, 0⟩, ⟨2678400000, 1⟩, ⟨5097600000, 2⟩] =
      [Elem.real ⟨0, 0⟩, Elem.real ⟨2678400000, 1⟩,
       Elem.real ⟨5097600000, 2⟩] := by
    set_option maxRecDepth 2000 in decide
  rw [hseg]
  have hd1 : differenceInDays 2678400000 0 = 31 := by decide
  have hd2 : differenceInDays 5097600000 2678400000 = 28 := by decide
  simp only [computeSpeed, speedFrom, speedChunk, hd1, hd2,
    List.append_nil, List.nil_append]
  norm_num

/- ### Claim C9 -/

/-- Claim C9 fails as stated: a single record with no completion timestamp
builds a one-point history (fewer than 2 points), yet the pipeline does not
fail — it silently produces a full chart. -/
theorem C9_counterexample :
    (buildHistory [⟨1, 0, none⟩] none).map List.length = some 1 ∧
      (processData [⟨1, 0, none⟩] none).isSome = true := by
  with_unfolding_all decide

/-- Claim C9 (amended): an empty record list makes the pipeline fail (the
source throws before reaching the forecaster), but a single-record input
with no completion timestamp builds a one-point history and the pipeline
still runs to completion, silently producing a chart with null-coerced
zero-duration forecasts. -/
theorem C9_theorem (c : Option Time) (r : Record)
    (hpass : r.passed_at = none) :
    processData [] c = none ∧
      buildHistory [r] none = some [⟨r.unlocked_at, r.level - 1⟩] ∧
      (processData [r] none).isSome = true := by
  have hb : buildHistory [r] none = some [⟨r.unlocked_at, r.level - 1⟩] := by
    simp [buildHistory, effStart, unlockPoints, completionOf, hpass]
  refine ⟨rfl, hb, ?_⟩
  have hfc : computeForecasts [⟨r.unlocked_at, r.level - 1⟩] =
      some [forecastLine ⟨r.unlocked_at, r.level - 1⟩ (none, none).1,
            forecastLine ⟨r.unlocked_at, r.level - 1⟩ (none, none).2] := rfl
  simp [processData, hb, hfc]

/-- The hypotheses of `C9_theorem` are satisfiable at the concrete record
`{level: 1, unlocked_at: 0, passed_at: null}`. -/
theorem C9_witness :
    processData ([] : List Record) none = none ∧
      buildHistory [⟨1, 0, none⟩] none = some [⟨0, 0⟩] ∧
      (processData [⟨1, 0, none⟩] none).isSome = true := by
  have h := C9_theorem none ⟨1, 0, none⟩ rfl
  exact ⟨h.1, h.2.1, h.2.2⟩

/- ### Claim C10 -/

/-- Claim C10: the completion point is appended after the cutoff filter, so
whenever the last record carries a completion timestamp the built history
ends with the completion point regardless of the cutoff; when the cutoff
drops every unlock point the history is the completion point alone. -/
theorem C10_theorem (r0 : Record) (rest : List Record) (cutoff : Option Time)
    (lastRec : Record) (t : Time)
    (hlast : (r0 :: rest).getLast? = some lastRec)
    (hpass : lastRec.passed_at = some t) :
    buildHistory (r0 :: rest) cutoff =
      some (((unlockPoints (r0 :: rest)).filter
          fun p => effStart cutoff r0.unlocked_at ≤ p.x)
        ++ [⟨t, lastRec.level⟩]) ∧
    ((∀ r ∈ r0 :: rest, r.unlocked_at < effStart cutoff r0.unlocked_at) →
      buildHistory (r0 :: rest) cutoff = some [⟨t, lastRec.level⟩]) := by
  have hcomp : completionOf (r0 :: rest) = [⟨t, lastRec.level⟩] := by
    simp only [completionOf, hlast, hpass]
  constructor
  · simp only [buildHistory]
    rw [hcomp]
  · intro hall
    have hfil : (unlockPoints (r0 :: rest)).filter
        (fun p => decide (effStart cutoff r0.unlocked_at ≤ p.x)) = [] := by
      rw [List.filter_eq_nil_iff]
      intro p hp
      obtain ⟨r, hr, rfl⟩ := List.mem_map.mp hp
      simpa using not_le.mpr (hall r hr)
    simp only [buildHistory]
    rw [hfil, hcomp]
    rfl

/-- The hypotheses of `C10_theorem` are satisfiable: one record unlocked at
0 ms, passed at 500 ms, with a cutoff of 1000 ms that drops the unlock
point — the built history is the completion point alone, even though the
completion timestamp itself lies before the cutoff. -/
theorem C10_witness :
    buildHistory [(⟨1, 0, some 500⟩ : Record)] (some 1000) =
      some [⟨500, 1⟩] :=
  (C10_theorem ⟨1, 0, some 500⟩ [] (some 1000) ⟨1, 0, some 500⟩ 500
    rfl rfl).2 (by decide)

end Zenshin
